import Mathlib

/-!
Verification of the qModManager reconciliation core (qmm/bucket.py,
qmm/fileutils.py, qmm/filehandler.py) against its specification.

Modelling conventions:
* Relative POSIX paths are modelled as their segment lists (`List String`),
  matching `pathlib.PurePosixPath(...).parts` of the normalized relative
  path stored in `FileMetadata._Path`.  A directory path carries no
  trailing-slash segment, exactly as `parts` drops it.
* CRC32 values are natural numbers.
* The process-global dict buckets of bucket.py are explicit values:
  `loosefiles` is an association list keyed by CRC (Python dicts have
  unique keys and preserve insertion order), `gamefiles` likewise, and the
  inter-archive `conflicts` dict is a function from paths to an optional
  contributor list.
* `FileMetadata.is_dir` follows the attribute letter stored in the record
  ("D" for directories), which is what `is_dir()` returns for records whose
  path does not exist on disk (archive content) and agrees with the disk
  state for installed files.
* Fallible code is modelled with `Except`: the `KeyError` of the
  gamefiles subscript in reset_conflicts, and the `AttributeError` both
  file_status variants raise when they pass the str
  `file.path_as_posix()` to `_bad_directory_structure`, which reads the
  `parts` attribute a str does not have.
-/

namespace QMM

/-- One file record, after qmm.bucket.FileMetadata: CRC32, normalized
relative path (as POSIX segments) and the attribute letter ("D" directory /
"F" file).  `modified` and the origin tag play no role in any claim and are
omitted: Python equality of FileMetadata compares only path and crc. -/
structure FileMetadata where
  crc : Nat
  path : List String
  attributes : String
deriving DecidableEq

/-- Attribute-based directory test, after FileMetadata.is_dir. -/
def FileMetadata.is_dir (f : FileMetadata) : Bool := f.attributes = "D"

/-- Python FileMetadata.__eq__: equality on path and crc only. -/
def fmEq (a b : FileMetadata) : Bool := a.path == b.path && a.crc == b.crc

/-- The bucket.loosefiles dict: CRC32 -> list of FileMetadata. -/
abbrev LooseFiles := List (Nat × List FileMetadata)

/-- The bucket.gamefiles dict: CRC32 -> FileMetadata. -/
abbrev GameFiles := List (Nat × FileMetadata)

/-- The bucket.conflicts dict: path -> list of archive names. -/
abbrev Conflicts := List String → Option (List String)

/-- bucket.file_crc_in_loosefiles: crc is a key of loosefiles. -/
def file_crc_in_loosefiles (f : FileMetadata) (loose : LooseFiles) : Bool :=
  (loose.lookup f.crc).isSome

/-- bucket.file_path_in_loosefiles: the path occurs in some bucket value. -/
def file_path_in_loosefiles (f : FileMetadata) (loose : LooseFiles) : Bool :=
  loose.any (fun e => e.2.any (fun x => x.path == f.path))

/-- bucket.with_conflict: path is a key of the conflicts dict. -/
def with_conflict (p : List String) (c : Conflicts) : Bool := (c p).isSome

/-- bucket.with_gamefiles: first the optional crc against the keys, then the
optional path against the values (None arguments never match). -/
def with_gamefiles (crc : Option Nat) (path : Option (List String))
    (gf : GameFiles) : Bool :=
  (match crc with
   | some c => (gf.lookup c).isSome
   | none => false) ||
  (match path with
   | some p => gf.any (fun e => e.2.path == p)
   | none => false)

/-- bucket.as_conflict: setdefault to the empty list, then extend. -/
def as_conflict (c : Conflicts) (key : List String) (value : List String) :
    Conflicts :=
  fun q => if q = key then some ((c key).getD [] ++ value) else c q

/-- The FileMetadata that bucket.as_loosefile builds for an installed file:
loose entries are regular files on disk, hence attribute "F". -/
def mkLoose (crc : Nat) (path : List String) : FileMetadata := ⟨crc, path, "F"⟩

/-- Append `x` to the bucket stored under key `crc` (dict item update). -/
def appendAt (crc : Nat) (x : FileMetadata) : LooseFiles → LooseFiles
  | [] => []
  | e :: rest =>
    if e.1 = crc then (e.1, e.2 ++ [x]) :: rest else e :: appendAt crc x rest

/-- bucket.as_loosefile: `setdefault(crc, [])` (a fresh dict key is appended
at the end, per insertion order) followed by appending the new record. -/
def as_loosefile (crc : Nat) (path : List String) (loose : LooseFiles) :
    LooseFiles :=
  let l1 := if (loose.lookup crc).isSome then loose else loose ++ [(crc, [])]
  appendAt crc (mkLoose crc path) l1

/-- bucket._find_index_from: scan the crc bucket for the first item whose
path matches, and return `list.index(item)` of it, i.e. the index of the
first element equal (path and crc) to that item; `none` models the Python
`False` returned when no path matches. -/
def find_index_from (bucket : List FileMetadata) (path : List String) :
    Option Nat :=
  match bucket.find? (fun it => it.path == path) with
  | some item => bucket.findIdx? (fun x => fmEq x item)
  | none => none

/-- Replace the bucket stored under key `crc` (dict item update). -/
def replaceAt (crc : Nat) (b : List FileMetadata) : LooseFiles → LooseFiles
  | [] => []
  | e :: rest =>
    if e.1 = crc then (e.1, b) :: rest else e :: replaceAt crc b rest

/-- bucket.remove_item_from_loosefiles.  Faithful to the source, including
the slip the Python code inherits from `_find_index_from` returning `False`
when the path is not in the crc bucket: `False` used as a list index is 0,
so `loosefiles[file.crc].pop(False)` pops the first bucket element. -/
def remove_item_from_loosefiles (f : FileMetadata) (loose : LooseFiles) :
    LooseFiles :=
  if (loose.lookup f.crc).isSome then
    if file_path_in_loosefiles f loose then
      let bucket := (loose.lookup f.crc).getD []
      let idx := (find_index_from bucket f.path).getD 0
      let bucket2 := bucket.eraseIdx idx
      if bucket2.isEmpty then List.eraseP (fun e => e.1 == f.crc) loose
      else replaceAt f.crc bucket2 loose
    else loose
  else loose

/-- fileutils.ignore_patterns / filehandler.ignore_patterns (non-7z form). -/
def ignore_patterns : List String := [".DS_Store", "__MACOSX", "Thumbs.db"]

/-- Name of the represented file: the last path segment (pathobj.name). -/
def pathName (f : FileMetadata) : String := (f.path.getLast?).getD ""

/-- Index of the last occurrence of a character, if any. -/
def lastIdxOf (c : Char) : List Char → Option Nat
  | [] => none
  | x :: xs =>
    match lastIdxOf c xs with
    | some i => some (i + 1)
    | none => if x = c then some 0 else none

/-- pathlib suffix of a file name: ".ext" when the last dot is neither the
first nor the last character, otherwise the empty string. -/
def pySuffix (s : String) : String :=
  match lastIdxOf '.' s.toList with
  | some i =>
    if 0 < i && i + 1 < s.toList.length then String.mk (s.toList.drop i)
    else ""
  | none => ""

namespace fileutils

/-- fileutils.first_level_dir. -/
def first_level_dir : List String :=
  ["items", "outfits", "setBonuses", "statusEffects", "race", "colours",
   "combatMove"]

/-- fileutils.subfolders_of. -/
def subfolders_of : List (String × List String) :=
  [("items", ["weapons", "clothing", "tattoos", "items", "patterns"]),
   ("race", ["bodyParts", "coveringTypes", "subspecies"])]

/-- fileutils.FileState. -/
inductive FileState where
  | MATCHED
  | MISSING
  | MISMATCHED
  | IGNORED
deriving DecidableEq

/-- fileutils._bad_directory_structure, the test its body expresses over
`path.parts`: (len >= 2 and parts[1] not in first_level_dir) or (len >= 3
and parts[1] == "items" and parts[2] not in subfolders_of["items"]).  Its
only call site hands it a str, whose missing `parts` attribute raises
before this test can run — see `ignored_check`. -/
def bad_directory_structure (parts : List String) : Bool :=
  (decide (2 ≤ parts.length) && !(first_level_dir.contains (parts.getD 1 ""))) ||
  (decide (3 ≤ parts.length) && (parts.getD 1 "" == "items") &&
    !(((subfolders_of.lookup "items").getD []).contains (parts.getD 2 "")))

/-- fileutils._bad_suffix (never reached from file_status: the preceding
disjunct raises first, see `ignored_check`). -/
def bad_suffix (s : String) : Bool := !(s == ".xml" || s == ".svg")

/-- The Ignored condition of fileutils.file_status, as it executes: the
`or` short-circuits to True when the leaf name is a junk pattern; for any
other name it evaluates `_bad_directory_structure(file.path_as_posix())`
(fileutils.py:115), passing the str that path_as_posix returns
(bucket.py:123-135) to a function that reads `path.parts`
(fileutils.py:97) — an AttributeError, modelled as `Except.error ()`.
The suffix disjunct after it is unreachable. -/
def ignored_check (f : FileMetadata) : Except Unit Bool :=
  if ignore_patterns.contains (pathName f) then Except.ok true
  else Except.error ()

/-- fileutils.file_status.  Written precedence: Ignored, then Matched
(directories match on path presence alone), then Mismatched, else Missing;
the Ignored test completes only by short-circuit on a junk leaf name, so
every other record propagates the AttributeError instead of reaching the
later branches. -/
def file_status (f : FileMetadata) (loose : LooseFiles) :
    Except Unit FileState :=
  match ignored_check f with
  | Except.error e => Except.error e
  | Except.ok ig =>
    if ig then Except.ok .IGNORED
    else if (f.is_dir && file_path_in_loosefiles f loose) ||
        (file_crc_in_loosefiles f loose && file_path_in_loosefiles f loose) then
      Except.ok .MATCHED
    else if file_path_in_loosefiles f loose &&
        !(file_crc_in_loosefiles f loose) then
      Except.ok .MISMATCHED
    else Except.ok .MISSING

end fileutils

namespace filehandler

/-- filehandler.first_level_dir. -/
def first_level_dir : List String := ["items", "outfits"]

/-- filehandler._bad_directory_structure, the test its body expresses over
`path.parts`: more than one part and the second part matches no
first-level directory.  As in fileutils, its only call site passes a str
and raises before the test runs — see `ignored_check`. -/
def bad_directory_structure (parts : List String) : Bool :=
  decide (1 < parts.length) &&
    !(first_level_dir.any (fun x => parts.getD 1 "" == x))

/-- filehandler._bad_suffix (never reached from file_status: the preceding
disjunct raises first, see `ignored_check`). -/
def bad_suffix (s : String) : Bool := !(s == ".xml" || s == ".svg")

/-- filehandler.FILE_MATCHED. -/
def FILE_MATCHED : Nat := 1

/-- filehandler.FILE_MISSING. -/
def FILE_MISSING : Nat := 2

/-- filehandler.FILE_MISMATCHED. -/
def FILE_MISMATCHED : Nat := 3

/-- filehandler.FILE_IGNORED. -/
def FILE_IGNORED : Nat := 4

/-- The Ignored condition of filehandler.file_status, as it executes: the
`or` short-circuits to True on a junk leaf name; otherwise
`_bad_directory_structure(file.path_as_posix())` (filehandler.py:765)
receives a str and raises AttributeError at `path.parts`
(filehandler.py:752), modelled as `Except.error ()`.  The suffix disjunct
is unreachable. -/
def ignored_check (f : FileMetadata) : Except Unit Bool :=
  if ignore_patterns.contains (pathName f) then Except.ok true
  else Except.error ()

/-- filehandler.file_status.  Unlike the fileutils variant the written
Matched test has no special clause for directories; as in fileutils, only
a junk leaf name completes the Ignored test, every other record
propagating the AttributeError. -/
def file_status (f : FileMetadata) (loose : LooseFiles) : Except Unit Nat :=
  match ignored_check f with
  | Except.error e => Except.error e
  | Except.ok ig =>
    if ig then Except.ok FILE_IGNORED
    else if file_crc_in_loosefiles f loose &&
        file_path_in_loosefiles f loose then
      Except.ok FILE_MATCHED
    else if file_path_in_loosefiles f loose &&
        !(file_crc_in_loosefiles f loose) then
      Except.ok FILE_MISMATCHED
    else Except.ok FILE_MISSING

end filehandler

end QMM

namespace QMM

/-- C1: evaluation at the failing input.  The record ns/badcat/f.xml fails
the directory-structure validation of both variants, and an identical path
and hash is indexed in loose_files; but neither classifier returns
Ignored: the leaf name f.xml is not a junk pattern, so file_status reaches
_bad_directory_structure(file.path_as_posix()) and raises AttributeError
(the str has no parts attribute).  Only a junk-named record (final
conjunct) reaches an Ignored verdict, by short-circuit before the crash. -/
theorem c1_classifier_crashes_before_ignored :
    fileutils.bad_directory_structure ["ns", "badcat", "f.xml"] = true ∧
    filehandler.bad_directory_structure ["ns", "badcat", "f.xml"] = true ∧
    fileutils.file_status ⟨7, ["ns", "badcat", "f.xml"], "F"⟩
        [(7, [mkLoose 7 ["ns", "badcat", "f.xml"]])] = Except.error () ∧
    filehandler.file_status ⟨7, ["ns", "badcat", "f.xml"], "F"⟩
        [(7, [mkLoose 7 ["ns", "badcat", "f.xml"]])] = Except.error () ∧
    fileutils.file_status ⟨0, ["ns", ".DS_Store"], "F"⟩ [] =
      Except.ok fileutils.FileState.IGNORED :=
  ⟨by decide, by decide, rfl, rfl, rfl⟩

/-- C6: evaluation at the failing input.  A Directory record whose path is
present among the loose files is never classified Matched: its leaf name
is not a junk pattern, so both classifiers raise AttributeError at
_bad_directory_structure(file.path_as_posix()) before producing any
status.  (The filehandler variant moreover has no directory clause in its
written Matched test, unlike the fileutils variant.) -/
theorem c6_directory_classification_crashes :
    FileMetadata.is_dir ⟨0, ["ns", "items", "clothing", "a"], "D"⟩ = true ∧
    file_path_in_loosefiles ⟨0, ["ns", "items", "clothing", "a"], "D"⟩
      [(5, [mkLoose 5 ["ns", "items", "clothing", "a"]])] = true ∧
    pathName ⟨0, ["ns", "items", "clothing", "a"], "D"⟩ ∉ ignore_patterns ∧
    fileutils.file_status ⟨0, ["ns", "items", "clothing", "a"], "D"⟩
        [(5, [mkLoose 5 ["ns", "items", "clothing", "a"]])] =
      Except.error () ∧
    filehandler.file_status ⟨0, ["ns", "items", "clothing", "a"], "D"⟩
        [(5, [mkLoose 5 ["ns", "items", "clothing", "a"]])] =
      Except.error () :=
  ⟨by decide, by decide, by decide, rfl, rfl⟩

/-- C9 counterexample: "race" is a registered category (a member of
first_level_dir) with a fixed sub-directory set registered in
subfolders_of, yet a path whose third segment is not in that set passes
the directory-structure check: _bad_directory_structure enforces the
sub-list of "items" only, so the path is not rejected.  (The liliththrone
RaceValidator regex likewise accepts ns/race/badsubdir/: the race
sub-folders sit at the fourth segment of its grammar.) -/
theorem c9_race_subfolder_counterexample :
    ("race" ∈ fileutils.first_level_dir ∧
     fileutils.subfolders_of.lookup "race" =
       some ["bodyParts", "coveringTypes", "subspecies"] ∧
     "badsubdir" ∉ ["bodyParts", "coveringTypes", "subspecies"]) ∧
    fileutils.bad_directory_structure ["ns", "race", "badsubdir", "file.xml"] =
      false := by decide

/-- C9 amended: within fileutils._bad_directory_structure (the
directory-grammar check over the path's parts), the third-segment
restriction is enforced for the "items" category only: every path whose
second segment is "items" and whose third segment is not one of its
permitted sub-directories fails the check; the registered "race" sub-list
is never consulted.  (At runtime the classifier raises before consulting
this check at all, see C1.) -/
theorem c9_items_subfolder_rejected (ns sub : String) (rest : List String)
    (h : sub ∉ ["weapons", "clothing", "tattoos", "items", "patterns"]) :
    fileutils.bad_directory_structure (ns :: "items" :: sub :: rest) =
      true := by
  simp [fileutils.bad_directory_structure, fileutils.subfolders_of,
    List.getD, h]

/-- Witness for the amended C9: items/badsubdir fails the structure check. -/
theorem c9_items_subfolder_rejected_witness :
    fileutils.bad_directory_structure ["ns", "items", "badsubdir", "f.xml"] =
      true :=
  c9_items_subfolder_rejected "ns" "badsubdir" ["f.xml"] (by decide)

end QMM

namespace QMM

namespace filehandler

/-- Dict item assignment for the per-archive _conflicts dict. -/
def dictSet (l : List (List String × List (String ⊕ FileMetadata)))
    (key : List String) (v : List (String ⊕ FileMetadata)) :
    List (List String × List (String ⊕ FileMetadata)) :=
  if (l.lookup key).isSome then
    l.map (fun e => if e.1 = key then (key, v) else e)
  else l ++ [(key, v)]

/-- ArchiveInstance.reset_conflicts: for each record, collect the
inter-archive contributors stored in bucket.conflicts under its path, then,
if the record's path or crc matches a game file, append
`bucket.gamefiles[item.crc]` — a dict subscript that raises KeyError
(modelled as `Except.error ()`) whenever the crc is not a gamefiles key. -/
def reset_conflicts (file_list : List FileMetadata) (bconf : Conflicts)
    (gamefiles : GameFiles)
    (self0 : List (List String × List (String ⊕ FileMetadata))) :
    Except Unit (List (List String × List (String ⊕ FileMetadata))) :=
  file_list.foldlM (fun acc item => do
    let tmp1 : List (String ⊕ FileMetadata) :=
      if with_conflict item.path bconf then
        ((bconf item.path).getD []).map Sum.inl
      else []
    let tmp2 ←
      (if with_gamefiles none (some item.path) gamefiles ||
          with_gamefiles (some item.crc) none gamefiles then
        match gamefiles.lookup item.crc with
        | some fmd => Except.ok (tmp1 ++ [Sum.inr fmd])
        | none => Except.error ()
      else Except.ok tmp1)
    pure (if tmp2.isEmpty then acc else dictSet acc item.path tmp2)) self0

/-- Return channel of install_archive: Python False or the extracted list. -/
inductive InstallRet where
  | fls
  | files (l : List (FileMetadata × Nat))
deriving DecidableEq

/-- Python falsiness of install_archive's return value (False or an empty
list), which is how manager.py decides failure (`if not files`). -/
def falsy_result : InstallRet → Bool
  | .fls => true
  | .files l => l.isEmpty

/-- filehandler.install_archive, restricted to its observable state: the
extraction outcome is an input (an ArchiveException becomes `Except.error`,
otherwise the list of extracted records paired with the CRC32 the installed
copy has on disk).  Directories are skipped; each installed file is indexed
with as_loosefile; afterwards every record of the mismatched context is
removed from the loose index.  Returns the Python return value (False or
the extracted list) together with the updated loose index. -/
def install_archive (game_folder_set : Bool)
    (extraction : Except Unit (List (FileMetadata × Nat)))
    (mismatched : List FileMetadata) (loose : LooseFiles) :
    InstallRet × LooseFiles :=
  if !game_folder_set then (.fls, loose)
  else
    match extraction with
    | .error _ => (.fls, loose)
    | .ok fs =>
      let loose1 := fs.foldl
        (fun st f => if f.1.is_dir then st else as_loosefile f.2 f.1.path st)
        loose
      let loose2 := mismatched.foldl
        (fun st m => remove_item_from_loosefiles m st) loose1
      (.files fs, loose2)

/-- ArchiveInstance.mismatched: for every meta entry with status
FILE_MISMATCHED, yield the loose-file records (scanning the buckets in
index order) whose path equals the entry's path. -/
def mismatched_from (meta : List (FileMetadata × Nat)) (loose : LooseFiles) :
    List FileMetadata :=
  if meta.any (fun x => x.2 == FILE_MISMATCHED) then
    (meta.filter (fun x => x.2 == FILE_MISMATCHED)).flatMap
      (fun it => loose.flatMap (fun b => b.2.filter (fun x => x.path == it.1.path)))
  else []

end filehandler

/-- Concrete gamefiles: one base-game file with CRC 10. -/
def gamefilesC2 : GameFiles :=
  [(10, ⟨10, ["ns", "items", "clothing", "a", "f.xml"], "F"⟩)]

/-- C2: evaluation at the failing input.  The archive record shares its path
with a base-game file but carries a different crc (99, not a gamefiles
key): with_gamefiles finds the path match, so reset_conflicts reaches
`bucket.gamefiles[item.crc]` and raises KeyError instead of recording the
conflict and completing. -/
theorem c2_gamefile_lookup_keyerror :
    (with_gamefiles none (some ["ns", "items", "clothing", "a", "f.xml"])
        gamefilesC2 = true ∧
     with_gamefiles (some 99) none gamefilesC2 = false) ∧
    filehandler.reset_conflicts [⟨99, ["ns", "items", "clothing", "a", "f.xml"], "F"⟩]
        (fun _ => none) gamefilesC2 [] = Except.error () :=
  ⟨by decide, rfl⟩

/-- C8: whenever the extraction step yields an empty file list, the value
install_archive hands back to its caller is Python-falsy (the empty list),
which the caller reads as failure: an empty extraction result is never
reported as success. -/
theorem c8_empty_extraction_fails (mismatched : List FileMetadata)
    (loose : LooseFiles) :
    filehandler.falsy_result
      (filehandler.install_archive true (Except.ok []) mismatched loose).1 =
      true := by
  simp [filehandler.install_archive, filehandler.falsy_result]

end QMM

namespace QMM

/-- C5: evaluation at the failing input.  With the stale loose file
(hash 5) at innoxia/items/clothing/sock/sock.xml and the archive record of
the same path with hash 111, classification never yields Mismatched: the
leaf name is not a junk pattern, so both classifiers raise AttributeError
at _bad_directory_structure(file.path_as_posix()); consequently
reset_status can never populate _meta, and the mismatched set that
install_info would derive from it is unreachable.  The final conjunct
shows the non-crashing half of the scenario: fed the mismatched context
the classification was meant to produce, the install state update does
index the new copy under hash 111 and delete the stale hash-5 bucket. -/
theorem c5_classification_crashes :
    filehandler.file_status
        ⟨111, ["innoxia", "items", "clothing", "sock", "sock.xml"], "F"⟩
        [(5, [mkLoose 5 ["innoxia", "items", "clothing", "sock", "sock.xml"]])] =
      Except.error () ∧
    fileutils.file_status
        ⟨111, ["innoxia", "items", "clothing", "sock", "sock.xml"], "F"⟩
        [(5, [mkLoose 5 ["innoxia", "items", "clothing", "sock", "sock.xml"]])] =
      Except.error () ∧
    (filehandler.install_archive true
        (Except.ok
          [(⟨111, ["innoxia", "items", "clothing", "sock", "sock.xml"], "F"⟩,
            111)])
        [mkLoose 5 ["innoxia", "items", "clothing", "sock", "sock.xml"]]
        [(5, [mkLoose 5 ["innoxia", "items", "clothing", "sock", "sock.xml"]])]).2 =
      [(111,
        [mkLoose 111 ["innoxia", "items", "clothing", "sock", "sock.xml"]])] :=
  ⟨rfl, rfl, by decide⟩

end QMM

namespace QMM

/-- Keys of an association list with a failed lookup all differ from the
looked-up key. -/
theorem lookup_none_keys {l : LooseFiles} {h : Nat}
    (hl : l.lookup h = none) : ∀ e ∈ l, e.1 ≠ h := by
  induction l with
  | nil => intro e he; cases he
  | cons a rest ih =>
    intro e he
    by_cases hah : (h == a.1) = true
    · simp [List.lookup, hah] at hl
    · have hne : a.1 ≠ h := by
        intro hcon
        exact hah (by simp [hcon])
      have hrest : rest.lookup h = none := by
        simpa [List.lookup, hah] using hl
      rcases List.mem_cons.mp he with he1 | he1
      · subst he1; exact hne
      · exact ih hrest e he1

/-- appendAt walks past entries whose key differs and updates the final
freshly-appended bucket. -/
theorem appendAt_append {l : LooseFiles} {h : Nat} {x : FileMetadata}
    {b : List FileMetadata} (hk : ∀ e ∈ l, e.1 ≠ h) :
    appendAt h x (l ++ [(h, b)]) = l ++ [(h, b ++ [x])] := by
  induction l with
  | nil => simp [appendAt]
  | cons a rest ih =>
    have ha : a.1 ≠ h := hk a (by simp)
    simp only [List.cons_append, appendAt, ha, if_false, List.append_eq]
    rw [ih (fun e he => hk e (by simp [he]))]

/-- Lookup skips over entries whose key differs. -/
theorem lookup_append_right {l r : LooseFiles} {h : Nat}
    (hk : ∀ e ∈ l, e.1 ≠ h) : (l ++ r).lookup h = r.lookup h := by
  induction l with
  | nil => simp
  | cons a rest ih =>
    have ha : (h == a.1) = false := by
      simpa using (Ne.symm (hk a (by simp)))
    simp only [List.cons_append, List.lookup, ha]
    exact ih (fun e he => hk e (by simp [he]))

/-- eraseP with a key test removes exactly the final entry when every
earlier key differs. -/
theorem eraseP_append {l : LooseFiles} {h : Nat} {b : List FileMetadata}
    (hk : ∀ e ∈ l, e.1 ≠ h) :
    List.eraseP (fun e => e.1 == h) (l ++ [(h, b)]) = l := by
  induction l with
  | nil => simp [List.eraseP]
  | cons a rest ih =>
    have ha : (a.1 == h) = false := by
      simpa using hk a (by simp)
    simp only [List.cons_append, List.eraseP_cons, ha, cond_false,
      List.cons.injEq, true_and]
    exact ih (fun e he => hk e (by simp [he]))

end QMM

namespace QMM

/-- C4 counterexample: the hash bucket survives the index/remove round trip
when another path shares the hash.  Starting from a state that contains no
(1, "a") entry but does hold hash key 1 (for path "b"), index_loose(1,"a")
followed by remove_loose(record(1,"a")) leaves contains_hash(1) true and
the key 1 still in the map. -/
theorem c4_roundtrip_counterexample :
    file_path_in_loosefiles (mkLoose 1 ["a"]) [(1, [mkLoose 1 ["b"]])] = false ∧
    remove_item_from_loosefiles (mkLoose 1 ["a"])
        (as_loosefile 1 ["a"] [(1, [mkLoose 1 ["b"]])]) =
      [(1, [mkLoose 1 ["b"]])] ∧
    file_crc_in_loosefiles (mkLoose 1 ["a"])
        (remove_item_from_loosefiles (mkLoose 1 ["a"])
          (as_loosefile 1 ["a"] [(1, [mkLoose 1 ["b"]])])) = true := by decide

/-- C4 amended: for every hash h and path p, starting from any loose-file
index state in which the hash h is absent as a key, index_loose(h, p)
followed by remove_loose of the record (h, p) restores the original state:
contains_hash(h) is false and no key h is left in the map (the emptied
bucket is deleted rather than kept as an empty list). -/
theorem c4_roundtrip_fresh_hash (loose : LooseFiles) (h : Nat)
    (p : List String) (hh : loose.lookup h = none) :
    remove_item_from_loosefiles (mkLoose h p) (as_loosefile h p loose) =
      loose ∧
    (remove_item_from_loosefiles (mkLoose h p)
        (as_loosefile h p loose)).lookup h = none ∧
    file_crc_in_loosefiles (mkLoose h p)
        (remove_item_from_loosefiles (mkLoose h p) (as_loosefile h p loose)) =
      false := by
  have hk : ∀ e ∈ loose, e.1 ≠ h := lookup_none_keys hh
  have hstep : as_loosefile h p loose = loose ++ [(h, [mkLoose h p])] := by
    simp only [as_loosefile, hh, Option.isSome_none, Bool.false_eq_true,
      if_false]
    simpa using @appendAt_append loose h (mkLoose h p) [] hk
  have hlook : (loose ++ [(h, [mkLoose h p])]).lookup h = some [mkLoose h p] := by
    rw [lookup_append_right hk]
    simp [List.lookup]
  have hpath : file_path_in_loosefiles (mkLoose h p)
      (loose ++ [(h, [mkLoose h p])]) = true := by
    simp [file_path_in_loosefiles, mkLoose]
  have hfind : find_index_from [mkLoose h p] p = some 0 := by
    simp [find_index_from, fmEq, mkLoose, List.findIdx?_cons]
  have hrem : remove_item_from_loosefiles (mkLoose h p)
      (loose ++ [(h, [mkLoose h p])]) = loose := by
    simp only [remove_item_from_loosefiles, mkLoose] at *
    simp only [hlook, hpath, Option.isSome_some, if_true, Option.getD_some,
      hfind, List.eraseIdx, List.isEmpty_nil, if_true]
    exact eraseP_append hk
  refine ⟨by rw [hstep, hrem], by rw [hstep, hrem, hh], ?_⟩
  rw [hstep, hrem]
  simp [file_crc_in_loosefiles, mkLoose, hh]

/-- Witness for the amended C4: round trip on hash 9, path "x", over a
state holding an unrelated hash. -/
theorem c4_roundtrip_fresh_hash_witness :
    remove_item_from_loosefiles (mkLoose 9 ["x"])
        (as_loosefile 9 ["x"] [(2, [mkLoose 2 ["y"]])]) =
      [(2, [mkLoose 2 ["y"]])] ∧
    (remove_item_from_loosefiles (mkLoose 9 ["x"])
        (as_loosefile 9 ["x"] [(2, [mkLoose 2 ["y"]])])).lookup 9 = none ∧
    file_crc_in_loosefiles (mkLoose 9 ["x"])
        (remove_item_from_loosefiles (mkLoose 9 ["x"])
          (as_loosefile 9 ["x"] [(2, [mkLoose 2 ["y"]])])) = false :=
  c4_roundtrip_fresh_hash [(2, [mkLoose 2 ["y"]])] 9 ["x"] (by decide)

/-- C10: evaluation at the failing input.  The record (crc 1, path "b")
matches no loose entry in both hash and path: hash key 1 holds only path
"a", and path "b" is indexed only under hash 2.  The code still enters the
removal branch (the crc is a key, and the path exists under the other
hash); _find_index_from then returns Python False, and pop(False) is
pop(0): the unrelated entry (1, "a") is removed — and with it the whole
hash-1 bucket — instead of leaving the index unchanged. -/
theorem c10_remove_pops_wrong_entry :
    List.all [(1, [mkLoose 1 ["a"]]), (2, [mkLoose 2 ["b"]])]
        (fun e => e.2.all (fun x => !(fmEq x (mkLoose 1 ["b"])))) = true ∧
    remove_item_from_loosefiles (mkLoose 1 ["b"])
        [(1, [mkLoose 1 ["a"]]), (2, [mkLoose 2 ["b"]])] =
      [(2, [mkLoose 2 ["b"]])] ∧
    remove_item_from_loosefiles (mkLoose 1 ["b"])
        [(1, [mkLoose 1 ["a"]]), (2, [mkLoose 2 ["b"]])] ≠
      [(1, [mkLoose 1 ["a"]]), (2, [mkLoose 2 ["b"]])] := by decide

end QMM

namespace QMM

namespace filehandler

/-- filehandler.file_in_other_archives: names of the archives (excluding the
ignored ones) holding a record at the same path with a different crc; one
name is appended per matching record, in collection order. -/
def file_in_other_archives (file : FileMetadata)
    (archives : List (String × List FileMetadata)) (ignore : List String) :
    List String :=
  archives.foldl
    (fun found a =>
      if ignore.contains a.1 then found
      else
        found ++ (a.2.filter
          (fun v => !file.is_dir && (file.path == v.path) &&
            !(file.crc == v.crc))).map (fun _ => a.1))
    []

/-- One step of filehandler.conflicts_process_files: skip a path already in
the conflicts bucket, otherwise register the found archives plus the
current archive under the record's path. -/
def cpf_step (arcs : List (String × List FileMetadata)) (cur : String)
    (proc : List String) (c : Conflicts) (f : FileMetadata) : Conflicts :=
  if with_conflict f.path c then c
  else
    let bad := file_in_other_archives f arcs proc
    if bad.isEmpty then c else as_conflict c f.path (bad ++ [cur])

/-- filehandler.conflicts_process_files. -/
def conflicts_process_files (files : List FileMetadata)
    (arcs : List (String × List FileMetadata)) (cur : String)
    (proc : List String) (c : Conflicts) : Conflicts :=
  files.foldl (cpf_step arcs cur proc) c

/-- filehandler.generate_conflicts_between_archives: process the archives in
collection order, threading the conflicts bucket and the list of already
processed archive names. -/
def generate_conflicts_between_archives
    (archives : List (String × List FileMetadata)) (c0 : Conflicts) :
    Conflicts :=
  (archives.foldl
    (fun st a =>
      (conflicts_process_files a.2 archives a.1 st.2 st.1, st.2 ++ [a.1]))
    (c0, ([] : List String))).1

end filehandler

/-- Three archives for the C3 counterexample: c.zip and a.zip share the
same content at path ns/f.xml (crc 1), b.zip has different content (crc 2)
at the same path. -/
def arcsC3 : List (String × List FileMetadata) :=
  [("c.zip", [⟨1, ["ns", "f.xml"], "F"⟩]),
   ("a.zip", [⟨1, ["ns", "f.xml"], "F"⟩]),
   ("b.zip", [⟨2, ["ns", "f.xml"], "F"⟩])]

/-- C3 counterexample: a.zip and b.zip both declare a non-directory record
at ns/f.xml with different hashes (1 versus 2), yet after a full conflict
detection run from an empty bucket the contributors recorded for that path
are b.zip and c.zip only: c.zip is processed first and registers the path,
and a.zip's record is then skipped by the with_conflict guard, so a.zip
never appears. -/
theorem c3_conflict_counterexample :
    (⟨1, ["ns", "f.xml"], "F"⟩ : FileMetadata).crc ≠
      (⟨2, ["ns", "f.xml"], "F"⟩ : FileMetadata).crc ∧
    filehandler.generate_conflicts_between_archives arcsC3 (fun _ => none)
        ["ns", "f.xml"] = some ["b.zip", "c.zip"] ∧
    "a.zip" ∉
      ((filehandler.generate_conflicts_between_archives arcsC3
          (fun _ => none)) ["ns", "f.xml"]).getD [] := by decide

/-- A step of conflicts_process_files never changes the bucket at a path
other than the processed record's path. -/
theorem cpf_step_at_ne {arcs : List (String × List FileMetadata)}
    {cur : String} {proc : List String} {c : Conflicts} {f : FileMetadata}
    {p : List String} (hfp : f.path ≠ p) :
    filehandler.cpf_step arcs cur proc c f p = c p := by
  unfold filehandler.cpf_step
  by_cases h1 : with_conflict f.path c = true
  · simp [h1]
  · by_cases h2 : (filehandler.file_in_other_archives f arcs proc).isEmpty = true
    · simp [h1, h2]
    · simp [h1, h2, as_conflict, Ne.symm hfp]

/-- Unfolding one step of the conflicts_process_files fold. -/
theorem cpf_cons (arcs : List (String × List FileMetadata)) (cur : String)
    (proc : List String) (f : FileMetadata) (rest : List FileMetadata)
    (c : Conflicts) :
    filehandler.conflicts_process_files (f :: rest) arcs cur proc c =
      filehandler.conflicts_process_files rest arcs cur proc
        (filehandler.cpf_step arcs cur proc c f) := rfl

/-- conflicts_process_files leaves the bucket unchanged at a path that none
of the processed records declares. -/
theorem cpf_preserve (arcs : List (String × List FileMetadata)) (cur : String)
    (proc : List String) (p : List String) :
    ∀ (files : List FileMetadata) (c : Conflicts),
      (∀ f ∈ files, f.path ≠ p) →
      filehandler.conflicts_process_files files arcs cur proc c p = c p := by
  intro files
  induction files with
  | nil => intro c _; rfl
  | cons f rest ih =>
    intro c hf
    have hstep := @cpf_step_at_ne arcs cur proc c f p (hf f (by simp))
    have hrest : ∀ g ∈ rest, g.path ≠ p := fun g hg => hf g (by simp [hg])
    rw [cpf_cons, ih _ hrest, hstep]

/-- Once a path is registered in the conflicts bucket, later processing
keeps its contributor list unchanged (the with_conflict guard skips it). -/
theorem cpf_keep (arcs : List (String × List FileMetadata)) (cur : String)
    (proc : List String) (p : List String) :
    ∀ (files : List FileMetadata) (c : Conflicts),
      (c p).isSome = true →
      filehandler.conflicts_process_files files arcs cur proc c p = c p := by
  intro files
  induction files with
  | nil => intro c _; rfl
  | cons f rest ih =>
    intro c hs
    have hstep : filehandler.cpf_step arcs cur proc c f p = c p := by
      by_cases hfp : f.path = p
      · have : with_conflict f.path c = true := by
          simp [with_conflict, hfp, hs]
        simp [filehandler.cpf_step, this]
      · exact cpf_step_at_ne hfp
    rw [cpf_cons, ih _ (by rw [hstep]; exact hs), hstep]

/-- Processing the archive that declares the (unique) record at path p over
a bucket not yet holding p registers the found contributors plus the
current archive name under p. -/
theorem cpf_hit (arcs : List (String × List FileMetadata)) (cur : String)
    (proc : List String) (p : List String) (ra : FileMetadata) :
    ∀ (files : List FileMetadata) (c : Conflicts),
      ra ∈ files →
      files.Pairwise (fun x y => x.path ≠ y.path) →
      ra.path = p →
      c p = none →
      (filehandler.file_in_other_archives ra arcs proc).isEmpty = false →
      filehandler.conflicts_process_files files arcs cur proc c p =
        some (filehandler.file_in_other_archives ra arcs proc ++ [cur]) := by
  intro files
  induction files with
  | nil => intro c hmem; cases hmem
  | cons f rest ih =>
    intro c hmem hpw hp hc hbad
    by_cases hf : f = ra
    · subst hf
      have hwc : with_conflict f.path c = false := by
        simp [with_conflict, hp, hc]
      have hstep : filehandler.cpf_step arcs cur proc c f =
          as_conflict c f.path
            (filehandler.file_in_other_archives f arcs proc ++ [cur]) := by
        simp [filehandler.cpf_step, hwc, hbad]
      have hrest : ∀ g ∈ rest, g.path ≠ p := by
        intro g hg
        have := (List.pairwise_cons.mp hpw).1 g hg
        rw [hp] at this
        exact this.symm
      have hval : (filehandler.cpf_step arcs cur proc c f) p =
          some (filehandler.file_in_other_archives f arcs proc ++ [cur]) := by
        rw [hstep]
        simp [as_conflict, hp, hc]
      rw [cpf_cons, cpf_preserve arcs cur proc p rest _ hrest, hval]
    · have hra2 : ra ∈ rest := by
        rcases List.mem_cons.mp hmem with h | h
        · exact absurd h.symm hf
        · exact h
      have hfp : f.path ≠ p := by
        have := (List.pairwise_cons.mp hpw).1 ra hra2
        rw [hp] at this
        exact this
      have hstep := @cpf_step_at_ne arcs cur proc c f p hfp
      rw [cpf_cons]
      exact ih _ hra2 (List.pairwise_cons.mp hpw).2 hp (by rw [hstep]; exact hc)
        hbad

/-- For a two-archive collection, file_in_other_archives concatenates the
per-archive matches in collection order. -/
theorem fio_two (f : FileMetadata) (na nb : String)
    (fa fb : List FileMetadata) :
    filehandler.file_in_other_archives f [(na, fa), (nb, fb)] [] =
      (fa.filter
        (fun v => !f.is_dir && (f.path == v.path) && !(f.crc == v.crc))).map
          (fun _ => na) ++
      (fb.filter
        (fun v => !f.is_dir && (f.path == v.path) && !(f.crc == v.crc))).map
          (fun _ => nb) := by
  simp [filehandler.file_in_other_archives]

/-- C3 amended: when A and B are the only archives in the collection, each
declaring at most one record per path, and both declare a non-directory
record at path p with different hashes, a detection run from an empty
bucket records both A's and B's names under conflicts[p]: the relation is
discoverable from either direction.  (With further archives the
with_conflict guard can drop a contributor, see the counterexample.) -/
theorem c3_two_archive_symmetry (na nb : String) (fa fb : List FileMetadata)
    (ra rb : FileMetadata) (p : List String)
    (hra : ra ∈ fa) (hrb : rb ∈ fb)
    (hpa : ra.path = p) (hpb : rb.path = p)
    (hda : ra.is_dir = false) (_hdb : rb.is_dir = false)
    (hcrc : ra.crc ≠ rb.crc)
    (hua : fa.Pairwise (fun x y => x.path ≠ y.path))
    (_hub : fb.Pairwise (fun x y => x.path ≠ y.path)) :
    na ∈ ((filehandler.generate_conflicts_between_archives
        [(na, fa), (nb, fb)] (fun _ => none)) p).getD [] ∧
    nb ∈ ((filehandler.generate_conflicts_between_archives
        [(na, fa), (nb, fb)] (fun _ => none)) p).getD [] := by
  have hq : (!ra.is_dir && (ra.path == rb.path) && !(ra.crc == rb.crc)) =
      true := by
    simp [hda, hpa, hpb, hcrc]
  have hnb : nb ∈ filehandler.file_in_other_archives ra
      [(na, fa), (nb, fb)] [] := by
    rw [fio_two]
    refine List.mem_append.mpr (Or.inr ?_)
    exact List.mem_map.mpr ⟨rb, List.mem_filter.mpr ⟨hrb, hq⟩, rfl⟩
  have hbad : (filehandler.file_in_other_archives ra
      [(na, fa), (nb, fb)] []).isEmpty = false := by
    rcases hfio : filehandler.file_in_other_archives ra
        [(na, fa), (nb, fb)] [] with _ | ⟨x, xs⟩
    · rw [hfio] at hnb; cases hnb
    · rfl
  have hgen : filehandler.generate_conflicts_between_archives
      [(na, fa), (nb, fb)] (fun _ => none) =
      filehandler.conflicts_process_files fb [(na, fa), (nb, fb)] nb [na]
        (filehandler.conflicts_process_files fa [(na, fa), (nb, fb)] na []
          (fun _ => none)) := by
    simp [filehandler.generate_conflicts_between_archives]
  have h1 : (filehandler.conflicts_process_files fa [(na, fa), (nb, fb)] na []
      (fun _ => none)) p =
      some (filehandler.file_in_other_archives ra [(na, fa), (nb, fb)] [] ++
        [na]) :=
    cpf_hit [(na, fa), (nb, fb)] na [] p ra fa (fun _ => none) hra hua hpa rfl
      hbad
  have h2 : (filehandler.conflicts_process_files fb [(na, fa), (nb, fb)] nb
      [na] (filehandler.conflicts_process_files fa [(na, fa), (nb, fb)] na []
        (fun _ => none))) p =
      (filehandler.conflicts_process_files fa [(na, fa), (nb, fb)] na []
        (fun _ => none)) p :=
    cpf_keep [(na, fa), (nb, fb)] nb [na] p fb _ (by rw [h1]; rfl)
  rw [hgen, h2, h1]
  constructor
  · simp
  · simp only [Option.getD_some]
    exact List.mem_append.mpr (Or.inl hnb)

/-- Witness for the amended C3: two singleton archives declaring path "p"
with crcs 1 and 2; both names end up among the contributors for "p". -/
theorem c3_two_archive_symmetry_witness :
    "a.zip" ∈ ((filehandler.generate_conflicts_between_archives
        [("a.zip", [⟨1, ["p"], "F"⟩]), ("b.zip", [⟨2, ["p"], "F"⟩])]
        (fun _ => none)) ["p"]).getD [] ∧
    "b.zip" ∈ ((filehandler.generate_conflicts_between_archives
        [("a.zip", [⟨1, ["p"], "F"⟩]), ("b.zip", [⟨2, ["p"], "F"⟩])]
        (fun _ => none)) ["p"]).getD [] :=
  c3_two_archive_symmetry "a.zip" "b.zip" [⟨1, ["p"], "F"⟩] [⟨2, ["p"], "F"⟩]
    ⟨1, ["p"], "F"⟩ ⟨2, ["p"], "F"⟩ ["p"] (by simp) (by simp) (by decide)
    (by decide) (by decide) (by decide) (by decide) (by simp) (by simp)

end QMM

namespace QMM

/-- Python list comparison on path parts, as used by pathlib.PurePath
ordering: the empty list (a proper prefix) is smaller, otherwise the first
differing part decides by string order. -/
def lexLt : List String → List String → Bool
  | [], [] => false
  | [], _ :: _ => true
  | _ :: _, [] => false
  | x :: xs, y :: ys => if x < y then true else if x = y then lexLt xs ys else false

/-- Cons unfolding of lexLt. -/
theorem lexLt_cons {x y : String} {xs ys : List String} :
    lexLt (x :: xs) (y :: ys) = true ↔ x < y ∨ (x = y ∧ lexLt xs ys = true) := by
  by_cases h1 : x < y
  · simp [lexLt, h1]
  · by_cases h2 : x = y
    · simp [lexLt, h1, h2]
    · simp [lexLt, h1, h2]

/-- lexLt is transitive. -/
theorem lexLt_trans : ∀ (a b c : List String), lexLt a b = true →
    lexLt b c = true → lexLt a c = true
  | [], [], _ => fun hab _ => by simp [lexLt] at hab
  | [], _ :: _, [] => fun _ hbc => by simp [lexLt] at hbc
  | [], _ :: _, _ :: _ => fun _ _ => by simp [lexLt]
  | _ :: _, [], _ => fun hab _ => by simp [lexLt] at hab
  | _ :: _, _ :: _, [] => fun _ hbc => by simp [lexLt] at hbc
  | x :: xs, y :: ys, z :: zs => fun hab hbc => by
    rcases lexLt_cons.mp hab with h1 | ⟨h1, h1r⟩ <;>
      rcases lexLt_cons.mp hbc with h2 | ⟨h2, h2r⟩
    · exact lexLt_cons.mpr (Or.inl (lt_trans h1 h2))
    · subst h2
      exact lexLt_cons.mpr (Or.inl h1)
    · subst h1
      exact lexLt_cons.mpr (Or.inl h2)
    · subst h1
      subst h2
      exact lexLt_cons.mpr (Or.inr ⟨rfl, lexLt_trans xs ys zs h1r h2r⟩)

/-- lexLt is asymmetric. -/
theorem lexLt_asymm : ∀ (a b : List String), lexLt a b = true →
    lexLt b a = false
  | [], [] => fun h => by simp [lexLt] at h
  | [], _ :: _ => fun _ => by simp [lexLt]
  | _ :: _, [] => fun h => by simp [lexLt] at h
  | x :: xs, y :: ys => fun h => by
    rcases lexLt_cons.mp h with h1 | ⟨h1, h1r⟩
    · have h2 : ¬ y < x := lt_asymm h1
      have h3 : ¬ y = x := fun he => absurd (he ▸ h1) (lt_irrefl x)
      simp [lexLt, h2, h3]
    · subst h1
      have := lexLt_asymm xs ys h1r
      simp [lexLt, lt_irrefl, this]

/-- lexLt satisfies trichotomy. -/
theorem lexLt_trichotomy : ∀ (a b : List String),
    a = b ∨ lexLt a b = true ∨ lexLt b a = true
  | [], [] => Or.inl rfl
  | [], _ :: _ => Or.inr (Or.inl (by simp [lexLt]))
  | _ :: _, [] => Or.inr (Or.inr (by simp [lexLt]))
  | x :: xs, y :: ys => by
    rcases lt_trichotomy x y with h | h | h
    · exact Or.inr (Or.inl (lexLt_cons.mpr (Or.inl h)))
    · subst h
      rcases lexLt_trichotomy xs ys with h2 | h2 | h2
      · exact Or.inl (by rw [h2])
      · exact Or.inr (Or.inl (lexLt_cons.mpr (Or.inr ⟨rfl, h2⟩)))
      · exact Or.inr (Or.inr (lexLt_cons.mpr (Or.inr ⟨rfl, h2⟩)))
    · exact Or.inr (Or.inr (lexLt_cons.mpr (Or.inl h)))

/-- Prepending a common parts list (the game root) does not change the
comparison. -/
theorem lexLt_append (r a b : List String) :
    lexLt (r ++ a) (r ++ b) = lexLt a b := by
  induction r with
  | nil => rfl
  | cons x rest ih => simp [lexLt, lt_irrefl, ih]

/-- Strict directory ancestorship on path parts: a is a proper prefix of b. -/
def strictAncestor (a b : List String) : Prop :=
  a ≠ b ∧ b.take a.length = a

/-- A strict ancestor is lexLt-smaller. -/
theorem strictAncestor_lexLt : ∀ (a b : List String), strictAncestor a b →
    lexLt a b = true
  | [], b => fun h => by
    rcases b with _ | ⟨y, ys⟩
    · exact absurd rfl h.1
    · simp [lexLt]
  | x :: xs, b => fun h => by
    rcases b with _ | ⟨y, ys⟩
    · exact absurd h.2 (by simp)
    · have htake := h.2
      simp only [List.length_cons, List.take_succ_cons, List.cons.injEq] at htake
      rcases htake with ⟨hy, hys⟩
      subst hy
      have hne : xs ≠ ys := by
        intro he
        exact h.1 (by rw [he])
      exact lexLt_cons.mpr
        (Or.inr ⟨rfl, strictAncestor_lexLt xs ys ⟨hne, hys⟩⟩)

namespace filehandler

/-- Deletion ordering of uninstall_files: the directory records of the
list, sorted by Python's stable sort with reverse=True on their pathobj:
the game root (an arbitrary common parts prefix) followed by the record's
relative parts, compared lexicographically; descending, so an element may
precede another exactly when it is not strictly smaller. -/
def uninstall_dirs_order (root : List String)
    (file_list : List FileMetadata) : List FileMetadata :=
  (file_list.filter (fun f => f.is_dir)).mergeSort
    (fun a b => !lexLt (root ++ a.path) (root ++ b.path))

end filehandler

/-- C7: in the deletion ordering produced by uninstall_files, no directory
is followed by one of its strict descendants: whenever one path is a proper
prefix of another, the longer (child) directory is processed before the
shorter (parent) one, for every record list and game root. -/
theorem c7_children_removed_first (root : List String)
    (l : List FileMetadata) :
    (filehandler.uninstall_dirs_order root l).Pairwise
      (fun a b => ¬ strictAncestor a.path b.path) := by
  have htrans : ∀ a b c : FileMetadata,
      (!lexLt (root ++ a.path) (root ++ b.path)) = true →
      (!lexLt (root ++ b.path) (root ++ c.path)) = true →
      (!lexLt (root ++ a.path) (root ++ c.path)) = true := by
    intro a b c hab hbc
    rw [Bool.not_eq_true'] at hab hbc ⊢
    by_contra hac0
    have hac : lexLt (root ++ a.path) (root ++ c.path) = true := by
      simpa using hac0
    rcases lexLt_trichotomy (root ++ b.path) (root ++ c.path) with h | h | h
    · rw [h] at hab
      rw [hab] at hac
      exact Bool.noConfusion hac
    · rw [h] at hbc
      exact Bool.noConfusion hbc
    · have ht := lexLt_trans _ _ _ hac h
      rw [ht] at hab
      exact Bool.noConfusion hab
  have htotal : ∀ a b : FileMetadata,
      ((!lexLt (root ++ a.path) (root ++ b.path)) ||
        (!lexLt (root ++ b.path) (root ++ a.path))) = true := by
    intro a b
    by_cases h : lexLt (root ++ a.path) (root ++ b.path) = true
    · have := lexLt_asymm _ _ h
      simp [this]
    · simp [Bool.not_eq_true] at h
      simp [h]
  have hs := @List.sorted_mergeSort FileMetadata
    (fun a b : FileMetadata => !lexLt (root ++ a.path) (root ++ b.path))
    htrans htotal (l.filter (fun f => f.is_dir))
  refine hs.imp ?_
  intro a b hle hanc
  have h1 : lexLt a.path b.path = true := strictAncestor_lexLt _ _ hanc
  have h2 : lexLt (root ++ a.path) (root ++ b.path) = true := by
    rw [lexLt_append]
    exact h1
  rw [h2] at hle
  simp at hle

end QMM
